import Mathlib

/-!
# Verification of the Inmos link controller module (`Inmos.py`)

A shallow embedding of the Inmos C011/C012 link adapter driver.  The driver
talks to an MCP23017 I2C GPIO expander: port A is the 8-bit data bus, port B
is the 8-bit control register.  We model the expander's registers explicitly
(direction registers `IODIRA`/`IODIRB`, output latches `OLATA`/`OLATB`, and
the port-A input register `GPIOA`) together with a trace of every register
read and write issued over the bus, so that claims about the number and the
order of hardware transactions can be stated and proved.

Python integers are nonnegative and arbitrary precision here (all register
values are bytes read back from the expander), so machine registers are
modelled as `Nat`; the Python bit operations `|=`, `&= ~`, `^` become
`setBit`, `clearBit`, `toggleBit` below.  Python exceptions become an
explicit `Err` sum propagated through `Except`.
-/

namespace RpiLink

/-- The MCP23017 registers the driver touches.
Modelled from the spec: the GPIO expander is an external collaborator
(its `MCP23017` module is not part of this repository); the spec treats it
as a capability with named registers: direction register, output-latch
register, input register, per port (A = data, B = control). -/
inductive Reg where
  | IODIRA
  | IODIRB
  | OLATA
  | OLATB
  | GPIOA
deriving DecidableEq, Repr

/-- Modelled from the spec: the MCP23017 direction-register value that makes
all eight pins of a port inputs (each IODIR bit set means input). -/
def INPUT : Nat := 0xFF

/-- Modelled from the spec: the MCP23017 direction-register value that makes
all eight pins of a port outputs. -/
def OUTPUT : Nat := 0x00

/-- Modelled from the spec: the observable state of the GPIO expander.
`gpioa` is the byte the external link adapter is currently driving onto
port A; reads of the `GPIOA` input register return it. -/
structure Gpio where
  iodira : Nat
  iodirb : Nat
  olata : Nat
  olatb : Nat
  gpioa : Nat
deriving DecidableEq, Repr

/-- One I2C transaction against the expander: a register write or read. -/
inductive Ev where
  | wr (r : Reg) (v : Nat)
  | rd (r : Reg) (v : Nat)
deriving DecidableEq, Repr

/-- Modelled from the spec: `gpio.write(reg, value)` — store into the named
register.  Writing the input register `GPIOA` is not used by the driver and
has no modelled effect. -/
def gpioWrite (g : Gpio) (r : Reg) (v : Nat) : Gpio :=
  match r with
  | .IODIRA => { g with iodira := v }
  | .IODIRB => { g with iodirb := v }
  | .OLATA => { g with olata := v }
  | .OLATB => { g with olatb := v }
  | .GPIOA => g

/-- Modelled from the spec: `gpio.read(reg)` — the value the named register
currently holds (output latches read back their latched value, `GPIOA`
returns the externally driven byte). -/
def gpioReadVal (g : Gpio) (r : Reg) : Nat :=
  match r with
  | .IODIRA => g.iodira
  | .IODIRB => g.iodirb
  | .OLATA => g.olata
  | .OLATB => g.olatb
  | .GPIOA => g.gpioa

/-- Python `x | (1 << i)`: set bit `i`. -/
def setBit (n i : Nat) : Nat := n ||| (1 <<< i)

/-- Python `x & ~(1 << i)` on a nonnegative arbitrary-precision integer
clears bit `i`, i.e. subtracts `2 ^ i` exactly when that bit is set. -/
def clearBit (n i : Nat) : Nat := n - (if n.testBit i then 1 <<< i else 0)

/-- Python `x ^ (1 << i)`: invert bit `i`. -/
def toggleBit (n i : Nat) : Nat := n ^^^ (1 <<< i)

/-- `SIGNALS`: the fixed tuple mapping IMSC012 signal names to port-B bits. -/
def SIGNALS : List String :=
  ["RnotW", "RS0", "RS1", "NotCS", "LinkSpeed", "Reset", "Status", "LinkReset"]

/-- Python `tuple.index` helper: position of `s` in `l`, counting from `k`. -/
def indexOfAux : List String → String → Nat → Option Nat
  | [], _, _ => none
  | x :: xs, s, k => if x = s then some k else indexOfAux xs s (k + 1)

/-- `SIGNALS.index(s)`: `some` bit position, or `none` where Python raises
`ValueError` for a name not in the tuple. -/
def sigIndex (s : String) : Option Nat := indexOfAux SIGNALS s 0

/-- The Python exceptions the module can raise. -/
inductive Err where
  | valueError
  | attributeError
  | indexError
deriving DecidableEq, Repr

/-- Sequence two traced, fallible steps (exception propagation). -/
def andThen (p : List Ev × Except Err Gpio) (f : Gpio → List Ev × Except Err α) :
    List Ev × Except Err α :=
  match p with
  | (t, .error e) => (t, .error e)
  | (t, .ok g) =>
    let q := f g
    (t ++ q.1, q.2)

/-- Prepend an already-issued trace to a step's result. -/
def withTrace (t : List Ev) (p : List Ev × Except Err α) : List Ev × Except Err α :=
  (t ++ p.1, p.2)

/-- The loop body of `Interface.set_signals`: fold the keyword arguments over
the control word, setting or clearing each named signal's bit; an unknown
name raises `ValueError` (from `SIGNALS.index`). -/
def applySignals : Nat → List (String × Bool) → Except Err Nat
  | cw, [] => .ok cw
  | cw, (s, b) :: rest =>
    match sigIndex s with
    | none => .error .valueError
    | some i => applySignals (if b then setBit cw i else clearBit cw i) rest

/-- `Interface.set_signals(**kwargs)`: read the control output latch, update
the named bits, write the result back as a single register write. -/
def set_signals (g : Gpio) (kwargs : List (String × Bool)) :
    List Ev × Except Err Gpio :=
  let cw := gpioReadVal g .OLATB
  match applySignals cw kwargs with
  | .error e => ([.rd .OLATB cw], .error e)
  | .ok cw2 => ([.rd .OLATB cw, .wr .OLATB cw2], .ok (gpioWrite g .OLATB cw2))

/-- `Interface.strobe_signal(*args)`: reject more than one name
(`AttributeError`); otherwise run the two-iteration loop, each iteration
reading the control latch and writing it back with the named bit inverted.
With no argument the first iteration's `args[0]` raises `IndexError`, after
the latch read in the same expression has already happened; an unknown name
raises `ValueError`.  (The terminal `sleep` only consumes time and is not
modelled.) -/
def strobe_signal (g : Gpio) (args : List String) : List Ev × Except Err Gpio :=
  if args.length > 1 then ([], .error .attributeError)
  else
    let cw := gpioReadVal g .OLATB
    match args with
    | [] => ([.rd .OLATB cw], .error .indexError)
    | a :: _ =>
      match sigIndex a with
      | none => ([.rd .OLATB cw], .error .valueError)
      | some i =>
        let g1 := gpioWrite g .OLATB (toggleBit cw i)
        let cw1 := gpioReadVal g1 .OLATB
        let g2 := gpioWrite g1 .OLATB (toggleBit cw1 i)
        ([.rd .OLATB cw, .wr .OLATB (toggleBit cw i),
          .rd .OLATB cw1, .wr .OLATB (toggleBit cw1 i)], .ok g2)

/-- `Interface.read_data()`: tri-state the data port to input, read `GPIOA`.
Returns the byte together with the trace and the new state. -/
def read_data (g : Gpio) : List Ev × Nat × Gpio :=
  let g1 := gpioWrite g .IODIRA INPUT
  ([.wr .IODIRA INPUT, .rd .GPIOA (gpioReadVal g1 .GPIOA)],
    gpioReadVal g1 .GPIOA, g1)

/-- `Interface.write_data(data)`: drive the data port as output and latch
`data` on it. -/
def write_data (g : Gpio) (data : Nat) : List Ev × Gpio :=
  let g1 := gpioWrite g .IODIRA OUTPUT
  let g2 := gpioWrite g1 .OLATA data
  ([.wr .IODIRA OUTPUT, .wr .OLATA data], g2)

/-- `Interface.__init__`: tri-state the data bus, make all control pins
outputs, clear the control latch. -/
def Interface.init (g : Gpio) : List Ev × Gpio :=
  let g1 := gpioWrite g .IODIRA INPUT
  let g2 := gpioWrite g1 .IODIRB OUTPUT
  let g3 := gpioWrite g2 .OLATB 0x00
  ([.wr .IODIRA INPUT, .wr .IODIRB OUTPUT, .wr .OLATB 0x00], g3)

/-- `Link.__init__(interface, linkspeed)` given an already-built interface
state `g`: assert `Reset` and deassert `NotCS`, then select the link speed
(10 clears `LinkSpeed`, 20 sets it, anything else raises `ValueError`),
then deassert `Reset`. -/
def Link.init (g : Gpio) (linkspeed : Nat) : List Ev × Except Err Gpio :=
  andThen (set_signals g [("Reset", true), ("NotCS", true)]) fun g1 =>
  andThen
    (if linkspeed = 10 then set_signals g1 [("LinkSpeed", false)]
     else if linkspeed = 20 then set_signals g1 [("LinkSpeed", true)]
     else ([], .error .valueError)) fun g2 =>
  set_signals g2 [("Reset", false)]

/-- `Link.data_present()`: select the input status register for a read,
assert chip select, read the bus, deselect, and test bit 0. -/
def data_present (g : Gpio) : List Ev × Except Err (Bool × Gpio) :=
  andThen
    (set_signals g
      [("RnotW", true), ("RS0", false), ("RS1", true), ("Status", true)]) fun g1 =>
  andThen (set_signals g1 [("NotCS", false)]) fun g2 =>
  let r := read_data g2
  let q := set_signals r.2.2 [("NotCS", true), ("Status", false)]
  (r.1 ++ q.1, q.2.map fun g4 => ((r.2.1 &&& 0x01 == 0x01), g4))

/-- `Link.output_ready()`: same pattern on the output status register. -/
def output_ready (g : Gpio) : List Ev × Except Err (Bool × Gpio) :=
  andThen
    (set_signals g
      [("RnotW", true), ("RS0", true), ("RS1", true), ("Status", true)]) fun g1 =>
  andThen (set_signals g1 [("NotCS", false)]) fun g2 =>
  let r := read_data g2
  let q := set_signals r.2.2 [("NotCS", true), ("Status", false)]
  (r.1 ++ q.1, q.2.map fun g4 => ((r.2.1 &&& 0x01 == 0x01), g4))

/-- `Link.enable_interrupts()`: write `0x02` to the ISR then to the OSR,
each write followed by a chip-select strobe, then clear `Status`. -/
def enable_interrupts (g : Gpio) : List Ev × Except Err Gpio :=
  andThen
    (set_signals g
      [("RnotW", false), ("RS0", false), ("RS1", true), ("Status", true)]) fun g1 =>
  let w1 := write_data g1 0x02
  andThen (withTrace w1.1 (strobe_signal w1.2 ["NotCS"])) fun g3 =>
  andThen (set_signals g3 [("RnotW", false), ("RS0", true), ("RS1", true)]) fun g4 =>
  let w2 := write_data g4 0x02
  andThen (withTrace w2.1 (strobe_signal w2.2 ["NotCS"])) fun g6 =>
  set_signals g6 [("Status", false)]

/-- `Link.disable_interrupts()`: as `enable_interrupts` but writing `0x00`. -/
def disable_interrupts (g : Gpio) : List Ev × Except Err Gpio :=
  andThen
    (set_signals g
      [("RnotW", false), ("RS0", false), ("RS1", true), ("Status", true)]) fun g1 =>
  let w1 := write_data g1 0x00
  andThen (withTrace w1.1 (strobe_signal w1.2 ["NotCS"])) fun g3 =>
  andThen (set_signals g3 [("RnotW", false), ("RS0", true), ("RS1", true)]) fun g4 =>
  let w2 := write_data g4 0x00
  andThen (withTrace w2.1 (strobe_signal w2.2 ["NotCS"])) fun g6 =>
  set_signals g6 [("Status", false)]

/-- `Link.write(data)`: select the output data register for a write, latch
`data` on the bus, strobe chip select, clear `Status`. -/
def Link.write (g : Gpio) (data : Nat) : List Ev × Except Err Gpio :=
  andThen
    (set_signals g
      [("RnotW", false), ("RS0", true), ("RS1", false), ("Status", true)]) fun g1 =>
  let w := write_data g1 data
  andThen (withTrace w.1 (strobe_signal w.2 ["NotCS"])) fun g3 =>
  set_signals g3 [("Status", false)]

/-- `Link.read()`: select the input data register for a read, assert chip
select, read the bus, deselect and clear `Status`, return the byte. -/
def Link.read (g : Gpio) : List Ev × Except Err (Nat × Gpio) :=
  andThen
    (set_signals g
      [("RnotW", true), ("RS0", false), ("RS1", false), ("Status", true)]) fun g1 =>
  andThen (set_signals g1 [("NotCS", false)]) fun g2 =>
  let r := read_data g2
  let q := set_signals r.2.2 [("NotCS", true), ("Status", false)]
  (r.1 ++ q.1, q.2.map fun g4 => (r.2.1, g4))

/-- `Link.reset(*args)`: with no argument strobe `LinkReset`, otherwise
latch `LinkReset` to the given state. -/
def Link.reset (g : Gpio) (args : List Bool) : List Ev × Except Err Gpio :=
  match args with
  | [] => strobe_signal g ["LinkReset"]
  | b :: _ => set_signals g [("LinkReset", b)]

/-- Final expander state of a fallible step, when it returned normally. -/
def okGpio (p : List Ev × Except Err Gpio) : Option Gpio :=
  p.2.toOption

/-- Final expander state of a value-returning step. -/
def okGpioV (p : List Ev × Except Err (α × Gpio)) : Option Gpio :=
  p.2.toOption.map Prod.snd

/-- Returned value of a value-returning step. -/
def okVal (p : List Ev × Except Err (α × Gpio)) : Option α :=
  p.2.toOption.map Prod.fst

/-- The raised exception of a step, if it failed. -/
def errOf : Except Err α → Option Err
  | .error e => some e
  | .ok _ => none

/-- The chip-select/status discipline a state satisfies after an operation:
`NotCS` (bit 3) set, `Status` (bit 6) clear, read off the final state of a
normally returning operation. -/
def deselStat (o : Option Gpio) : Option (Bool × Bool) :=
  o.map fun gf => (gf.olatb.testBit 3, gf.olatb.testBit 6)


theorem xor_two_pow_of_testBit_false :
    ∀ (i m : Nat), m.testBit i = false → m ^^^ 2 ^ i = m + 2 ^ i := by
  intro i
  induction i with
  | zero =>
    intro m h
    conv_lhs => rw [← Nat.bit_decomp m]
    conv_rhs => rw [← Nat.bit_decomp m]
    rw [← Nat.bit_decomp m, Nat.testBit_bit_zero] at h
    rw [h]
    have h1 : (2 : Nat) ^ 0 = Nat.bit true 0 := by simp [Nat.bit_val]
    rw [h1, Nat.xor_bit]
    simp [Nat.bit_val]
  | succ i ih =>
    intro m h
    conv_lhs => rw [← Nat.bit_decomp m]
    conv_rhs => rw [← Nat.bit_decomp m]
    rw [← Nat.bit_decomp m, Nat.testBit_bit_succ] at h
    have h1 : (2 : Nat) ^ (i + 1) = Nat.bit false (2 ^ i) := by
      simp [Nat.bit_val]; ring
    rw [h1, Nat.xor_bit, ih _ h]
    simp [Nat.bit_val]
    ring

theorem sub_two_pow_of_testBit_true {n i : Nat} (h : n.testBit i = true) :
    n - 2 ^ i = n ^^^ 2 ^ i := by
  have hm : (n ^^^ 2 ^ i).testBit i = false := by
    simp [Nat.testBit_xor, Nat.testBit_two_pow, h]
  have hx := xor_two_pow_of_testBit_false i (n ^^^ 2 ^ i) hm
  rw [Nat.xor_cancel_right] at hx
  omega

theorem testBit_setBit (n i j : Nat) :
    (setBit n i).testBit j = (decide (i = j) || n.testBit j) := by
  rw [setBit, Nat.shiftLeft_eq, one_mul, Nat.testBit_lor, Nat.testBit_two_pow]
  rw [Bool.or_comm]

theorem testBit_clearBit (n i j : Nat) :
    (clearBit n i).testBit j = (!decide (i = j) && n.testBit j) := by
  rw [clearBit]
  by_cases h : n.testBit i
  · rw [if_pos h, Nat.shiftLeft_eq, one_mul, sub_two_pow_of_testBit_true h,
      Nat.testBit_xor, Nat.testBit_two_pow]
    by_cases hij : i = j
    · subst hij; simp [h]
    · simp [hij]
  · rw [if_neg h, Nat.sub_zero]
    by_cases hij : i = j
    · subst hij; simp [h, Bool.eq_false_iff.mpr h]
    · simp [hij]

theorem testBit_toggleBit (n i j : Nat) :
    (toggleBit n i).testBit j = (decide (i = j) ^^ n.testBit j) := by
  rw [toggleBit, Nat.shiftLeft_eq, one_mul, Nat.testBit_xor, Nat.testBit_two_pow]
  rw [Bool.xor_comm]

theorem toggleBit_toggleBit (n i : Nat) : toggleBit (toggleBit n i) i = n := by
  rw [toggleBit, toggleBit, Nat.xor_cancel_right]


theorem indexOfAux_some :
    ∀ (l : List String) (s : String) (k i : Nat),
      indexOfAux l s k = some i → k ≤ i ∧ l[i - k]? = some s := by
  intro l
  induction l with
  | nil => intro s k i h; simp [indexOfAux] at h
  | cons x xs ih =>
    intro s k i h
    rw [indexOfAux] at h
    by_cases hx : x = s
    · rw [if_pos hx] at h
      obtain rfl : k = i := by injection h
      simp [hx]
    · rw [if_neg hx] at h
      obtain ⟨hk, hget⟩ := ih s (k + 1) i h
      refine ⟨by omega, ?_⟩
      have h2 : i - k = (i - (k + 1)) + 1 := by omega
      rw [h2]
      simpa using hget

theorem indexOfAux_none_of_notMem :
    ∀ (l : List String) (s : String) (k : Nat), s ∉ l → indexOfAux l s k = none := by
  intro l
  induction l with
  | nil => intro s k _; rfl
  | cons x xs ih =>
    intro s k h
    rw [indexOfAux, if_neg, ih]
    · simp at h; exact fun hm => h.2 hm
    · simp at h; exact fun he => h.1 he.symm

theorem indexOfAux_isSome_of_mem :
    ∀ (l : List String) (s : String) (k : Nat), s ∈ l → (indexOfAux l s k).isSome := by
  intro l
  induction l with
  | nil => intro s k h; simp at h
  | cons x xs ih =>
    intro s k h
    rw [indexOfAux]
    by_cases hx : x = s
    · simp [hx]
    · rw [if_neg hx]
      rcases List.mem_cons.mp h with h1 | h2
      · exact absurd h1.symm hx
      · exact ih s (k + 1) h2

theorem sigIndex_get {s : String} {i : Nat} (h : sigIndex s = some i) :
    SIGNALS[i]? = some s := by
  have := indexOfAux_some SIGNALS s 0 i h
  simpa using this.2

theorem sigIndex_lt_eight {s : String} {i : Nat} (h : sigIndex s = some i) :
    i < 8 := by
  have hg := sigIndex_get h
  have : i < SIGNALS.length := by
    by_contra hc
    rw [List.getElem?_eq_none (by omega)] at hg
    exact Option.noConfusion hg
  simpa [SIGNALS] using this

theorem sigIndex_inj {a b : String} {i : Nat}
    (ha : sigIndex a = some i) (hb : sigIndex b = some i) : a = b := by
  have h1 := sigIndex_get ha
  have h2 := sigIndex_get hb
  rw [h1] at h2
  injection h2

theorem sigIndex_none_of_notMem {s : String} (h : s ∉ SIGNALS) : sigIndex s = none :=
  indexOfAux_none_of_notMem SIGNALS s 0 h

theorem sigIndex_isSome_of_mem {s : String} (h : s ∈ SIGNALS) :
    (sigIndex s).isSome :=
  indexOfAux_isSome_of_mem SIGNALS s 0 h


theorem applySignals_notMem :
    ∀ (kwargs : List (String × Bool)) (cw cwf j : Nat),
      applySignals cw kwargs = .ok cwf →
      (∀ p ∈ kwargs, sigIndex p.1 ≠ some j) →
      cwf.testBit j = cw.testBit j := by
  intro kwargs
  induction kwargs with
  | nil =>
    intro cw cwf j h _
    rw [applySignals] at h
    injection h with h
    rw [h]
  | cons p rest ih =>
    intro cw cwf j h hnot
    obtain ⟨s, b⟩ := p
    rw [applySignals] at h
    cases hsi : sigIndex s with
    | none => rw [hsi] at h; exact absurd h (by simp)
    | some i =>
      rw [hsi] at h
      have hij : ¬(i = j) := fun he =>
        hnot (s, b) (List.mem_cons_self _ _) (by rw [hsi, he])
      have hrest := ih _ _ j h (fun q hq => hnot q (List.mem_cons_of_mem _ hq))
      rw [hrest]
      cases b with
      | true => simp [testBit_setBit, hij]
      | false => simp [testBit_clearBit, hij]

theorem applySignals_mem :
    ∀ (kwargs : List (String × Bool)) (cw cwf : Nat),
      applySignals cw kwargs = .ok cwf →
      (kwargs.map Prod.fst).Nodup →
      ∀ p ∈ kwargs, ∀ i, sigIndex p.1 = some i → cwf.testBit i = p.2 := by
  intro kwargs
  induction kwargs with
  | nil => intro cw cwf _ _ p hp; simp at hp
  | cons q rest ih =>
    intro cw cwf h hnd p hp i hpi
    obtain ⟨s, b⟩ := q
    rw [applySignals] at h
    rw [List.map_cons, List.nodup_cons] at hnd
    cases hsi : sigIndex s with
    | none => rw [hsi] at h; exact absurd h (by simp)
    | some isig =>
      rw [hsi] at h
      rcases List.mem_cons.mp hp with rfl | hpr
      · simp only at hpi
        rw [hsi] at hpi
        have hii : isig = i := by injection hpi
        have hnone : ∀ r ∈ rest, sigIndex r.1 ≠ some i := by
          intro r hr hre
          refine hnd.1 ?_
          rw [List.mem_map]
          refine ⟨r, hr, sigIndex_inj hre ?_⟩
          rw [hsi, hii]
        rw [applySignals_notMem rest _ cwf i h hnone, ← hii]
        cases b with
        | true => simp [testBit_setBit]
        | false => simp [testBit_clearBit]
      · exact ih _ _ h hnd.2 p hpr i hpi

theorem applySignals_isOk :
    ∀ (kwargs : List (String × Bool)) (cw : Nat),
      (∀ p ∈ kwargs, p.1 ∈ SIGNALS) →
      ∃ cwf, applySignals cw kwargs = .ok cwf := by
  intro kwargs
  induction kwargs with
  | nil => intro cw _; exact ⟨cw, rfl⟩
  | cons q rest ih =>
    intro cw hmem
    obtain ⟨s, b⟩ := q
    have hs := sigIndex_isSome_of_mem (hmem (s, b) (List.mem_cons_self _ _))
    cases hsi : sigIndex s with
    | none => rw [hsi] at hs; simp at hs
    | some i =>
      obtain ⟨cwf, hcwf⟩ :=
        ih (if b then setBit cw i else clearBit cw i)
          (fun p hp => hmem p (List.mem_cons_of_mem _ hp))
      exact ⟨cwf, by rw [applySignals, hsi]; exact hcwf⟩


theorem sigIndex_RnotW : sigIndex "RnotW" = some 0 := rfl

theorem sigIndex_RS0 : sigIndex "RS0" = some 1 := rfl

theorem sigIndex_RS1 : sigIndex "RS1" = some 2 := rfl

theorem sigIndex_NotCS : sigIndex "NotCS" = some 3 := rfl

theorem sigIndex_LinkSpeed : sigIndex "LinkSpeed" = some 4 := rfl

theorem sigIndex_Reset : sigIndex "Reset" = some 5 := rfl

theorem sigIndex_Status : sigIndex "Status" = some 6 := rfl

theorem sigIndex_LinkReset : sigIndex "LinkReset" = some 7 := rfl

theorem and_one_beq_one (n : Nat) : (n &&& 1 == 1) = n.testBit 0 := by
  rw [Nat.and_one_is_mod, Nat.testBit_to_div_mod]
  rcases Nat.mod_two_eq_zero_or_one n with h | h <;> simp [h, Nat.div_one]

theorem mod_two_beq_one (n : Nat) : (n % 2 == 1) = n.testBit 0 := by
  rw [Nat.testBit_to_div_mod]
  rcases Nat.mod_two_eq_zero_or_one n with h | h <;> simp [h, Nat.div_one]

/-- C10: `strobe_signal` with zero signal names raises an error (`IndexError`
from `args[0]`, after the guard only rejected calls with more than one name
and after the control-latch read); it is never a silent no-op. -/
theorem C10_strobe_empty_raises (g : Gpio) :
    strobe_signal g [] = ([.rd .OLATB g.olatb], .error .indexError) := by
  simp [strobe_signal, gpioReadVal]

/-- C8: `strobe_signal` fails with `AttributeError` (the spec's
`InvalidArgument`) whenever more than one signal name is supplied, before any
hardware access: the trace is empty. -/
theorem C8_strobe_multi_rejected (g : Gpio) (args : List String)
    (h : 1 < args.length) :
    strobe_signal g args = ([], .error .attributeError) := by
  rw [strobe_signal, if_pos h]

theorem C8_strobe_multi_rejected_witness :
    strobe_signal ⟨0xFF, 0x00, 0x00, 0x00, 0x00⟩ ["RS0", "RS1"] =
      ([], .error .attributeError) :=
  C8_strobe_multi_rejected ⟨0xFF, 0x00, 0x00, 0x00, 0x00⟩ ["RS0", "RS1"]
    (by decide)

/-- C1 counterexample: with prior control value `0x00`, one call of
`strobe_signal("RnotW")` leaves the control register at `0x00`, not at the
prior value with bit 0 flipped (`0x01`) as the claim states. -/
theorem C1_counterexample :
    (strobe_signal ⟨0xFF, 0x00, 0x00, 0x00, 0x00⟩ ["RnotW"]).2.toOption.map
        Gpio.olatb = some 0x00
    ∧ some (0x00 : Nat) ≠ some (toggleBit 0x00 0) := by
  decide

/-- C1 (amended): one call of `strobe_signal(s)` writes the control register
twice — first with bit `s` flipped, then flipped back — so the flip is only
momentary and a single call already leaves the register equal to the prior
value; two consecutive calls likewise leave it unchanged. -/
theorem C1_strobe_momentary (g : Gpio) (s : String) (i : Nat)
    (h : sigIndex s = some i) :
    strobe_signal g [s] =
      ([.rd .OLATB g.olatb, .wr .OLATB (toggleBit g.olatb i),
        .rd .OLATB (toggleBit g.olatb i), .wr .OLATB g.olatb], .ok g)
    ∧ okGpio (andThen (strobe_signal g [s]) fun g1 => strobe_signal g1 [s]) =
        some g := by
  have h1 : strobe_signal g [s] =
      ([.rd .OLATB g.olatb, .wr .OLATB (toggleBit g.olatb i),
        .rd .OLATB (toggleBit g.olatb i), .wr .OLATB g.olatb], .ok g) := by
    simp [strobe_signal, gpioWrite, gpioReadVal, h, toggleBit_toggleBit]
  refine ⟨h1, ?_⟩
  simp [andThen, h1, okGpio, Except.toOption]

theorem C1_strobe_momentary_witness :
    strobe_signal ⟨255, 0, 0, 5, 9⟩ ["RS1"] =
      ([.rd .OLATB 5, .wr .OLATB 1, .rd .OLATB 1, .wr .OLATB 5],
        .ok ⟨255, 0, 0, 5, 9⟩)
    ∧ okGpio (andThen (strobe_signal ⟨255, 0, 0, 5, 9⟩ ["RS1"]) fun g1 =>
        strobe_signal g1 ["RS1"]) = some ⟨255, 0, 0, 5, 9⟩ :=
  C1_strobe_momentary ⟨255, 0, 0, 5, 9⟩ "RS1" 2 rfl

/-- C6: `data_present()` returns true iff bit 0 of the byte read from the
data bus is 1, and so does `output_ready()`; in particular true for a bus
byte `0x01` and false for `0x00`. -/
theorem C6_status_bit_zero (g : Gpio) :
    okVal (data_present g) = some (g.gpioa.testBit 0)
    ∧ okVal (output_ready g) = some (g.gpioa.testBit 0)
    ∧ okVal (data_present { g with gpioa := 0x01 }) = some true
    ∧ okVal (data_present { g with gpioa := 0x00 }) = some false
    ∧ okVal (output_ready { g with gpioa := 0x01 }) = some true
    ∧ okVal (output_ready { g with gpioa := 0x00 }) = some false := by
  have hd : ∀ g1 : Gpio, okVal (data_present g1) = some (g1.gpioa.testBit 0) := by
    intro g1
    simp [data_present, andThen, set_signals, applySignals, sigIndex_RnotW,
      sigIndex_RS0, sigIndex_RS1, sigIndex_NotCS, sigIndex_Status, read_data,
      gpioWrite, gpioReadVal, okVal, and_one_beq_one, mod_two_beq_one,
      Except.toOption, Except.map]
  have ho : ∀ g1 : Gpio, okVal (output_ready g1) = some (g1.gpioa.testBit 0) := by
    intro g1
    simp [output_ready, andThen, set_signals, applySignals, sigIndex_RnotW,
      sigIndex_RS0, sigIndex_RS1, sigIndex_NotCS, sigIndex_Status, read_data,
      gpioWrite, gpioReadVal, okVal, and_one_beq_one, mod_two_beq_one,
      Except.toOption, Except.map]
  exact ⟨hd g, ho g, by simp [hd], by simp [hd], by simp [ho], by simp [ho]⟩


/-- C2 counterexample: constructing a `Link` with the invalid linkspeed 15
does fail with `ValueError`, but a control-register write (asserting `Reset`
and deasserting `NotCS`, value `0x28`) has already been issued on that
failing path, contrary to the claim that no I2C register write occurs. -/
theorem C2_counterexample :
    (Link.init ⟨0xFF, 0x00, 0x00, 0x00, 0x00⟩ 15).1 =
      [.rd .OLATB 0x00, .wr .OLATB 0x28]
    ∧ errOf (Link.init ⟨0xFF, 0x00, 0x00, 0x00, 0x00⟩ 15).2 = some .valueError
    ∧ Ev.wr .OLATB 0x28 ∈ (Link.init ⟨0xFF, 0x00, 0x00, 0x00, 0x00⟩ 15).1 := by
  decide

/-- C2 (amended): constructing a `Link` with linkspeed 10 leaves the
`LinkSpeed` signal (bit 4) cleared and with 20 leaves it set; every other
linkspeed fails with `ValueError` — but only after the initial
control-register write asserting `Reset` and deasserting `NotCS` has been
issued, which is the single hardware write of the failing path. -/
theorem C2_link_init (g : Gpio) (speed : Nat) :
    (Link.init g 10).2 =
      .ok (gpioWrite g .OLATB
        (clearBit (clearBit (setBit (setBit g.olatb 5) 3) 4) 5))
    ∧ (clearBit (clearBit (setBit (setBit g.olatb 5) 3) 4) 5).testBit 4 = false
    ∧ (Link.init g 20).2 =
      .ok (gpioWrite g .OLATB
        (clearBit (setBit (setBit (setBit g.olatb 5) 3) 4) 5))
    ∧ (clearBit (setBit (setBit (setBit g.olatb 5) 3) 4) 5).testBit 4 = true
    ∧ (speed ≠ 10 → speed ≠ 20 →
        Link.init g speed =
          ([.rd .OLATB g.olatb, .wr .OLATB (setBit (setBit g.olatb 5) 3)],
            .error .valueError)) := by
  refine ⟨?_, ?_, ?_, ?_, ?_⟩
  · simp [Link.init, andThen, set_signals, applySignals, sigIndex_Reset,
      sigIndex_NotCS, sigIndex_LinkSpeed, gpioWrite, gpioReadVal]
  · simp [testBit_clearBit, testBit_setBit]
  · simp [Link.init, andThen, set_signals, applySignals, sigIndex_Reset,
      sigIndex_NotCS, sigIndex_LinkSpeed, gpioWrite, gpioReadVal]
  · simp [testBit_clearBit, testBit_setBit]
  · intro h10 h20
    simp [Link.init, andThen, set_signals, applySignals, sigIndex_Reset,
      sigIndex_NotCS, gpioWrite, gpioReadVal, h10, h20]

theorem C2_link_init_witness :
    Link.init ⟨0xFF, 0x00, 0x00, 0x00, 0x00⟩ 15 =
      ([.rd .OLATB 0x00, .wr .OLATB 0x28], .error .valueError) :=
  (C2_link_init ⟨0xFF, 0x00, 0x00, 0x00, 0x00⟩ 15).2.2.2.2 (by decide) (by decide)

/-- C3 counterexample: starting with the data-port direction register at
input (`0xFF`), `Link.write 0xAB` returns with the direction register still
at output (`0x00`), so the direction is not set back to input after the
chip-select window closes. -/
theorem C3_counterexample :
    okGpio (Link.write ⟨INPUT, 0x00, 0x00, 0x08, 0x00⟩ 0xAB) =
      some ⟨OUTPUT, 0x00, 0xAB, 0x0A, 0x00⟩
    ∧ OUTPUT ≠ INPUT := by
  decide

/-- C3 (amended): `Link.write b` latches `b` onto the data-bus output
register with the port direction switched to output before the chip-select
strobe (so `b` is on the bus during the chip-select window), but on return
the data-port direction register still reads output: it is restored to
input only by the next read-type operation, not immediately after the
window closes. -/
theorem C3_write_latch (g : Gpio) (b : Nat) (cw1 : Nat)
    (h1 : cw1 = setBit (clearBit (setBit (clearBit g.olatb 0) 1) 2) 6) :
    Link.write g b =
      ([.rd .OLATB g.olatb, .wr .OLATB cw1,
        .wr .IODIRA OUTPUT, .wr .OLATA b,
        .rd .OLATB cw1, .wr .OLATB (toggleBit cw1 3),
        .rd .OLATB (toggleBit cw1 3), .wr .OLATB cw1,
        .rd .OLATB cw1, .wr .OLATB (clearBit cw1 6)],
       .ok { g with iodira := OUTPUT, olata := b, olatb := clearBit cw1 6 })
    ∧ OUTPUT ≠ INPUT := by
  subst h1
  refine ⟨?_, by decide⟩
  simp [Link.write, andThen, withTrace, set_signals, applySignals,
    sigIndex_RnotW, sigIndex_RS0, sigIndex_RS1, sigIndex_NotCS,
    sigIndex_Status, write_data, strobe_signal, gpioWrite, gpioReadVal,
    toggleBit_toggleBit]

theorem C3_write_latch_witness :
    Link.write ⟨0xFF, 0x00, 0x00, 0x08, 0x00⟩ 0xAB =
      ([.rd .OLATB 8, .wr .OLATB 74, .wr .IODIRA 0, .wr .OLATA 171,
        .rd .OLATB 74, .wr .OLATB 66, .rd .OLATB 66, .wr .OLATB 74,
        .rd .OLATB 74, .wr .OLATB 10],
       .ok ⟨0, 0, 171, 10, 0⟩)
    ∧ OUTPUT ≠ INPUT :=
  C3_write_latch ⟨0xFF, 0x00, 0x00, 0x08, 0x00⟩ 0xAB 74 (by decide)

/-- C5: `enable_interrupts` issues exactly two data-register writes, both of
value `0x02` — the first with the register selects addressing the input
status register (`RnotW` clear, `RS0` clear, `RS1` set, bits 0..2 of `cw1`),
the second addressing the output status register (`RS0` and `RS1` set, bits
of `cw2`) — each followed by a chip-select strobe pulse, and on return the
`Status` signal (bit 6) is cleared.  The trace below is the complete list of
I2C transactions of the call. -/
theorem C5_enable_interrupts_trace (g : Gpio) (cw1 cw2 : Nat)
    (h1 : cw1 = setBit (setBit (clearBit (clearBit g.olatb 0) 1) 2) 6)
    (h2 : cw2 = setBit (setBit (clearBit cw1 0) 1) 2) :
    enable_interrupts g =
      ([.rd .OLATB g.olatb, .wr .OLATB cw1,
        .wr .IODIRA OUTPUT, .wr .OLATA 0x02,
        .rd .OLATB cw1, .wr .OLATB (toggleBit cw1 3),
        .rd .OLATB (toggleBit cw1 3), .wr .OLATB cw1,
        .rd .OLATB cw1, .wr .OLATB cw2,
        .wr .IODIRA OUTPUT, .wr .OLATA 0x02,
        .rd .OLATB cw2, .wr .OLATB (toggleBit cw2 3),
        .rd .OLATB (toggleBit cw2 3), .wr .OLATB cw2,
        .rd .OLATB cw2, .wr .OLATB (clearBit cw2 6)],
       .ok { g with iodira := OUTPUT, olata := 0x02, olatb := clearBit cw2 6 })
    ∧ cw1.testBit 0 = false ∧ cw1.testBit 1 = false ∧ cw1.testBit 2 = true
    ∧ cw2.testBit 0 = false ∧ cw2.testBit 1 = true ∧ cw2.testBit 2 = true
    ∧ (clearBit cw2 6).testBit 6 = false := by
  subst h1
  subst h2
  refine ⟨?_, ?_, ?_, ?_, ?_, ?_, ?_, ?_⟩
  · simp [enable_interrupts, andThen, withTrace, set_signals, applySignals,
      sigIndex_RnotW, sigIndex_RS0, sigIndex_RS1, sigIndex_NotCS,
      sigIndex_Status, write_data, strobe_signal, gpioWrite, gpioReadVal,
      toggleBit_toggleBit]
  all_goals simp only [testBit_clearBit, testBit_setBit]
  all_goals simp

theorem C5_enable_interrupts_trace_witness :
    enable_interrupts ⟨0xFF, 0x00, 0x00, 0x08, 0x00⟩ =
      ([.rd .OLATB 8, .wr .OLATB 76,
        .wr .IODIRA 0, .wr .OLATA 2,
        .rd .OLATB 76, .wr .OLATB 68,
        .rd .OLATB 68, .wr .OLATB 76,
        .rd .OLATB 76, .wr .OLATB 78,
        .wr .IODIRA 0, .wr .OLATA 2,
        .rd .OLATB 78, .wr .OLATB 70,
        .rd .OLATB 70, .wr .OLATB 78,
        .rd .OLATB 78, .wr .OLATB 14],
       .ok ⟨0, 0, 2, 14, 0⟩)
    ∧ (76 : Nat).testBit 0 = false ∧ (76 : Nat).testBit 1 = false
    ∧ (76 : Nat).testBit 2 = true
    ∧ (78 : Nat).testBit 0 = false ∧ (78 : Nat).testBit 1 = true
    ∧ (78 : Nat).testBit 2 = true
    ∧ (clearBit 78 6).testBit 6 = false :=
  C5_enable_interrupts_trace ⟨0xFF, 0x00, 0x00, 0x08, 0x00⟩ 76 78
    (by decide) (by decide)


/-- C4: for every mapping of distinct valid signal names to booleans and
every prior control-register value, `set_signals` performs one control
register read and exactly one control-register write whose value has the
named bits exactly as requested and every other bit unchanged. -/
theorem C4_set_signals_frame (g : Gpio) (kwargs : List (String × Bool))
    (cw : Nat) (hnd : (kwargs.map Prod.fst).Nodup)
    (hok : applySignals g.olatb kwargs = .ok cw) :
    set_signals g kwargs =
      ([.rd .OLATB g.olatb, .wr .OLATB cw], .ok (gpioWrite g .OLATB cw))
    ∧ (∀ p ∈ kwargs, ∀ i, sigIndex p.1 = some i → cw.testBit i = p.2)
    ∧ (∀ j, (∀ p ∈ kwargs, sigIndex p.1 ≠ some j) →
        cw.testBit j = g.olatb.testBit j) := by
  refine ⟨?_, fun p hp i hpi => applySignals_mem kwargs _ cw hok hnd p hp i hpi,
    fun j hj => applySignals_notMem kwargs _ cw j hok hj⟩
  simp [set_signals, gpioReadVal, hok]

theorem C4_set_signals_frame_witness :
    set_signals ⟨0xFF, 0x00, 0x00, 65, 0x00⟩ [("RnotW", false), ("Status", true)] =
      ([.rd .OLATB 65, .wr .OLATB 64], .ok ⟨0xFF, 0x00, 0x00, 64, 0x00⟩)
    ∧ ((64 : Nat).testBit 0 = false ∧ (64 : Nat).testBit 6 = true)
    ∧ (64 : Nat).testBit 3 = (65 : Nat).testBit 3 := by
  have h := C4_set_signals_frame ⟨0xFF, 0x00, 0x00, 65, 0x00⟩
    [("RnotW", false), ("Status", true)] 64 (by decide) rfl
  refine ⟨h.1, ⟨?_, ?_⟩, ?_⟩
  · exact h.2.1 ("RnotW", false) (by decide) 0 rfl
  · exact h.2.1 ("Status", true) (by decide) 6 rfl
  · exact h.2.2 3 (by decide)

/-- C7: the signal-name lookup returns the name's fixed bit position in
`{0..7}` exactly as listed in the `SIGNALS` table when the name is present,
and fails (Python `ValueError`, the spec's `UnknownSignal`) when it is not;
`set_signals` surfaces that failure before any register write. -/
theorem C7_signal_lookup :
    (∀ s i, sigIndex s = some i → i < 8 ∧ SIGNALS[i]? = some s)
    ∧ (∀ s, s ∈ SIGNALS → ∃ i, sigIndex s = some i)
    ∧ (∀ s, s ∉ SIGNALS → sigIndex s = none)
    ∧ (∀ g (s : String) (b : Bool), s ∉ SIGNALS →
        set_signals g [(s, b)] = ([.rd .OLATB g.olatb], .error .valueError)) := by
  refine ⟨fun s i h => ⟨sigIndex_lt_eight h, sigIndex_get h⟩,
    fun s hs => ?_, fun s hs => sigIndex_none_of_notMem hs,
    fun g s b hs => ?_⟩
  · exact Option.isSome_iff_exists.mp (sigIndex_isSome_of_mem hs)
  · simp [set_signals, applySignals, gpioReadVal, sigIndex_none_of_notMem hs]

theorem C7_signal_lookup_witness :
    (4 < 8 ∧ SIGNALS[4]? = some "LinkSpeed")
    ∧ (∃ i, sigIndex "NotCS" = some i)
    ∧ sigIndex "Foo" = none
    ∧ set_signals ⟨0xFF, 0x00, 0x00, 0x22, 0x00⟩ [("Foo", true)] =
        ([.rd .OLATB 0x22], .error .valueError) :=
  ⟨C7_signal_lookup.1 "LinkSpeed" 4 rfl,
    C7_signal_lookup.2.1 "NotCS" (by decide),
    C7_signal_lookup.2.2.1 "Foo" (by decide),
    C7_signal_lookup.2.2.2 ⟨0xFF, 0x00, 0x00, 0x22, 0x00⟩ "Foo" true (by decide)⟩

/-- C9: every `Link` operation that returns normally — `data_present`,
`output_ready`, `read`, `write`, `enable_interrupts`, `disable_interrupts` —
does return normally here and leaves the control register with the `NotCS`
bit set (chip deselected) and the `Status` bit cleared, provided `NotCS` was
set on entry (as `Link.__init__` establishes); chip select is never left
asserted across operation boundaries. -/
theorem C9_chip_deselected (g : Gpio) (b : Nat)
    (h : g.olatb.testBit 3 = true) :
    deselStat (okGpioV (data_present g)) = some (true, false)
    ∧ deselStat (okGpioV (output_ready g)) = some (true, false)
    ∧ deselStat (okGpioV (Link.read g)) = some (true, false)
    ∧ deselStat (okGpio (Link.write g b)) = some (true, false)
    ∧ deselStat (okGpio (enable_interrupts g)) = some (true, false)
    ∧ deselStat (okGpio (disable_interrupts g)) = some (true, false) := by
  refine ⟨?_, ?_, ?_, ?_, ?_, ?_⟩ <;>
    simp [data_present, output_ready, Link.read, Link.write,
      enable_interrupts, disable_interrupts, andThen, withTrace, set_signals,
      applySignals, sigIndex_RnotW, sigIndex_RS0, sigIndex_RS1, sigIndex_NotCS,
      sigIndex_Status, read_data, write_data, strobe_signal, gpioWrite,
      gpioReadVal, okGpio, okGpioV, deselStat, Except.toOption, Except.map,
      toggleBit_toggleBit, testBit_setBit, testBit_clearBit, h]

theorem C9_chip_deselected_witness :
    deselStat (okGpioV (data_present ⟨0xFF, 0x00, 0x00, 0x08, 0x01⟩)) =
      some (true, false)
    ∧ deselStat (okGpioV (output_ready ⟨0xFF, 0x00, 0x00, 0x08, 0x01⟩)) =
      some (true, false)
    ∧ deselStat (okGpioV (Link.read ⟨0xFF, 0x00, 0x00, 0x08, 0x01⟩)) =
      some (true, false)
    ∧ deselStat (okGpio (Link.write ⟨0xFF, 0x00, 0x00, 0x08, 0x01⟩ 0x55)) =
      some (true, false)
    ∧ deselStat (okGpio (enable_interrupts ⟨0xFF, 0x00, 0x00, 0x08, 0x01⟩)) =
      some (true, false)
    ∧ deselStat (okGpio (disable_interrupts ⟨0xFF, 0x00, 0x00, 0x08, 0x01⟩)) =
      some (true, false) :=
  C9_chip_deselected ⟨0xFF, 0x00, 0x00, 0x08, 0x01⟩ 0x55 (by decide)

end RpiLink
